import Mathlib

/-!
Shallow embedding of libUIO's `handling.c` (libUIO helper library).

The C code manipulates a `struct uio_info_t` holding device identity, an open
file descriptor, and an array of `maxmap` map slots (`struct uio_map_t`),
each with a size, an offset, a physical address and a mapped pointer whose
sentinel "unmapped" value is `MAP_FAILED`.

Modelling conventions:
* pointers that can be `MAP_FAILED` are `Option Nat` (`none` = `MAP_FAILED`);
  `char *` fields that can be `NULL` are `Option String` (`none` = `NULL`);
* OS calls (`open`, `mmap`, `munmap`, `close`, `write`, `read`, `select`,
  `scandir`, `calloc`) are supplied by explicit environment records, and each
  operation additionally returns the trace of the OS calls it issued, so that
  "no I/O is performed" and "exactly one mapping call" are statable;
* a C array access whose index may be out of bounds is modelled as an
  `Option`-valued read: `none` means the C program performs an out-of-bounds
  access (undefined behaviour);
* `errno` assignments made by the library itself (`EINVAL`, `ETIMEDOUT`) are
  modelled explicitly; `none` means the function left `errno` to whatever the
  failing OS call set (the "generic" error).
-/

namespace LibUio

/-- One memory-map slot (`struct uio_map_t` as used by `handling.c`):
size, offset, physical address, and the mapped pointer
(`none` models the `MAP_FAILED` sentinel). -/
structure UioMap where
  addr : Nat
  size : Nat
  offset : Nat
  map : Option Nat
deriving DecidableEq

/-- Device descriptor (`struct uio_info_t` as used by `handling.c`). -/
structure uio_info_t where
  name : Option String
  version : Option String
  devname : String
  devid : Nat
  maxmap : Nat
  maps : List UioMap
  fd : Int
deriving DecidableEq

/-- Well-formedness of a descriptor produced by the factory: the `maps`
array really has `maxmap` elements (the C code indexes `maps [0..maxmap)`). -/
def WF (i : uio_info_t) : Prop := i.maps.length = i.maxmap

instance (i : uio_info_t) : Decidable (WF i) := by
  unfold WF; infer_instance

/-- A C array access `maps [idx]` with an `int` index: defined only for
`0 ≤ idx < maps.length`; `none` models an out-of-bounds access (UB). -/
def readMap (maps : List UioMap) (idx : Int) : Option UioMap :=
  if 0 ≤ idx then maps.get? idx.toNat else none

/-- Embedding of `uio_get_mem_size`: `if (!info || map >= info->maxmap)
return 0; return info->maps [map].size;`. -/
def uio_get_mem_size (info : Option uio_info_t) (midx : Int) : Option Nat :=
  match info with
  | none => some 0
  | some i =>
    if (i.maxmap : Int) ≤ midx then some 0
    else (readMap i.maps midx).map UioMap.size

/-- Embedding of `uio_get_offset`: same guard, returns `maps [map].offset`. -/
def uio_get_offset (info : Option uio_info_t) (midx : Int) : Option Nat :=
  match info with
  | none => some 0
  | some i =>
    if (i.maxmap : Int) ≤ midx then some 0
    else (readMap i.maps midx).map UioMap.offset

/-- Embedding of `uio_get_mem_addr`: same guard, returns `maps [map].addr`. -/
def uio_get_mem_addr (info : Option uio_info_t) (midx : Int) : Option Nat :=
  match info with
  | none => some 0
  | some i =>
    if (i.maxmap : Int) ≤ midx then some 0
    else (readMap i.maps midx).map UioMap.addr

/-- Embedding of `uio_get_mem_map`: `if (!info || map >= info->maxmap ||
info->maps [map].map == MAP_FAILED) return NULL; return info->maps [map].map;`.
Outer `none` = UB (out-of-bounds read of `maps [map].map`); `some none` =
the function returns `NULL`; `some (some p)` = it returns pointer `p`
(returning `NULL` when the slot holds `MAP_FAILED` and the slot's pointer
otherwise collapses to returning the slot's `Option Nat` value). -/
def uio_get_mem_map (info : Option uio_info_t) (midx : Int) : Option (Option Nat) :=
  match info with
  | none => some none
  | some i =>
    if (i.maxmap : Int) ≤ midx then some none
    else (readMap i.maps midx).map UioMap.map

/-- Embedding of `uio_get_name`: `NULL` for a null descriptor, else the
`name` field (itself a possibly-`NULL` string). -/
def uio_get_name (info : Option uio_info_t) : Option String :=
  match info with
  | none => none
  | some i => i.name

/-- Embedding of `uio_get_devname`. -/
def uio_get_devname (info : Option uio_info_t) : Option String :=
  match info with
  | none => none
  | some i => some i.devname

/-- Embedding of `uio_get_version`. -/
def uio_get_version (info : Option uio_info_t) : Option String :=
  match info with
  | none => none
  | some i => i.version

/-- glibc `major(dev)`: `((dev >> 8) & 0xfff) | ((dev >> 32) & ~0xfff)`. -/
def c_major (d : Nat) : Nat :=
  ((d >>> 8) &&& 0xfff) ||| ((d >>> 32) &&& 0xFFFFFFFFFFFFF000)

/-- glibc `minor(dev)`: `(dev & 0xff) | ((dev >> 12) & ~0xff)`. -/
def c_minor (d : Nat) : Nat :=
  (d &&& 0xff) ||| ((d >>> 12) &&& 0xFFFFFFFFFFFFFF00)

/-- Embedding of `uio_get_major`: `0` for a null descriptor, else
`major (info->devid)`. -/
def uio_get_major (info : Option uio_info_t) : Nat :=
  match info with
  | none => 0
  | some i => c_major i.devid

/-- Embedding of `uio_get_minor`. -/
def uio_get_minor (info : Option uio_info_t) : Nat :=
  match info with
  | none => 0
  | some i => c_minor i.devid

/-- Embedding of `uio_get_devid`. -/
def uio_get_devid (info : Option uio_info_t) : Nat :=
  match info with
  | none => 0
  | some i => i.devid

/-- Embedding of `uio_get_maxmap`. -/
def uio_get_maxmap (info : Option uio_info_t) : Nat :=
  match info with
  | none => 0
  | some i => i.maxmap

/-- OS environment for `uio_open`: the result of `open (devname, O_RDWR)`
(negative = failure) and, for each map index and declared size, the result of
`mmap (NULL, size, PROT_READ|PROT_WRITE, MAP_SHARED, fd, i)`
(`none` = `MAP_FAILED`). -/
structure OpenEnv where
  openResult : Int
  mmapResult : Nat → Nat → Option Nat

/-- Result of `uio_open`: return code, the updated descriptor, the ordered
trace of `mmap` calls issued as (index, declared size) pairs, and whether the
function itself set `errno = EINVAL`. -/
structure OpenResult where
  ret : Int
  st : Option uio_info_t
  mmapCalls : List (Nat × Nat)
  einval : Bool
deriving DecidableEq

/-- The mmap loop of `uio_open`
(`for (i = 0; i < info->maxmap; i++) info->maps [i].map = mmap (...)`),
as a pointwise update of the slot array: slot `idx` (counting from the given
start index) gets its pointer overwritten with the mmap result for that index
and its declared size, for indices below the loop bound `mm = maxmap`. -/
def mmapWrites (env : OpenEnv) (mm : Nat) : Nat → List UioMap → List UioMap
  | _, [] => []
  | idx, m :: rest =>
    (if idx < mm then { m with map := env.mmapResult idx m.size } else m)
      :: mmapWrites env mm (idx + 1) rest

/-- The trace of mmap calls issued by the loop of `uio_open`:
one `(index, declared size)` entry per loop iteration, in order. -/
def mmapCallsOf (mm : Nat) : Nat → List UioMap → List (Nat × Nat)
  | _, [] => []
  | idx, m :: rest =>
    (if idx < mm then [(idx, m.size)] else []) ++ mmapCallsOf mm (idx + 1) rest

/-- Embedding of `uio_open`: `EINVAL` and -1 on a null descriptor; -1 with no
mmap attempted when `open` fails; otherwise one `mmap` per map index in
order, each result stored unconditionally into the slot's pointer, the file
descriptor stored, and 0 returned. -/
def uio_open (info : Option uio_info_t) (env : OpenEnv) : OpenResult :=
  match info with
  | none => ⟨-1, none, [], true⟩
  | some i =>
    if env.openResult < 0 then ⟨-1, some i, [], false⟩
    else
      ⟨0,
       some { i with maps := mmapWrites env i.maxmap 0 i.maps,
                     fd := env.openResult },
       mmapCallsOf i.maxmap 0 i.maps,
       false⟩

/-- Result of `uio_close`: return code, updated descriptor, the trace of
`munmap` calls issued as (pointer, size) pairs, the trace of `close` calls
issued (the fd values passed), and whether `errno = EINVAL` was set. -/
structure CloseResult where
  ret : Int
  st : Option uio_info_t
  munmapCalls : List (Nat × Nat)
  closeCalls : List Int
  einval : Bool
deriving DecidableEq

/-- The unmap loop of `uio_close`: every slot below the loop bound has its
pointer reset to the `MAP_FAILED` sentinel. -/
def unmapWrites (mm : Nat) : Nat → List UioMap → List UioMap
  | _, [] => []
  | idx, m :: rest =>
    (if idx < mm then { m with map := none } else m)
      :: unmapWrites mm (idx + 1) rest

/-- The trace of `munmap` calls issued by the loop of `uio_close`: a slot
below the loop bound contributes `munmap (map, size)` exactly when its
pointer is not the `MAP_FAILED` sentinel
(`if (info->maps [i].map != MAP_FAILED) munmap (...)`). -/
def munmapCallsOf (mm : Nat) : Nat → List UioMap → List (Nat × Nat)
  | _, [] => []
  | idx, m :: rest =>
    (if idx < mm then (match m.map with
                       | some p => [(p, m.size)]
                       | none => []) else [])
      ++ munmapCallsOf mm (idx + 1) rest

/-- Embedding of `uio_close`: `EINVAL` and -1 on a null descriptor; otherwise
unmap every non-sentinel slot, reset every slot's pointer to the sentinel,
call `close (info->fd)` unconditionally (without resetting the `fd` field),
and return 0. -/
def uio_close (info : Option uio_info_t) : CloseResult :=
  match info with
  | none => ⟨-1, none, [], [], true⟩
  | some i =>
    ⟨0,
     some { i with maps := unmapWrites i.maxmap 0 i.maps },
     munmapCallsOf i.maxmap 0 i.maps,
     [i.fd],
     false⟩

/-- OS environment for the irq-toggle calls: the return value of
`write (fd, &tmp, 4)` (bytes accepted, or negative). -/
structure IrqEnv where
  writeResult : Int

/-- Result of `uio_enable_irq`/`uio_disable_irq`: return code, the trace of
`write` calls issued as (fd, value, length) triples, and the `EINVAL` flag. -/
structure IrqResult where
  ret : Int
  writes : List (Int × Nat × Nat)
  einval : Bool
deriving DecidableEq

/-- Embedding of `uio_enable_irq`: `EINVAL` and -1 when the descriptor is null or
`fd == -1`; otherwise write the 4-byte value 1 to `fd` and return 0 exactly
when 4 bytes were accepted. -/
def uio_enable_irq (info : Option uio_info_t) (env : IrqEnv) : IrqResult :=
  match info with
  | none => ⟨-1, [], true⟩
  | some i =>
    if i.fd = -1 then ⟨-1, [], true⟩
    else ⟨if env.writeResult = 4 then 0 else -1, [(i.fd, 1, 4)], false⟩

/-- Embedding of `uio_disable_irq`: as `uio_enable_irq` but writing 0. -/
def uio_disable_irq (info : Option uio_info_t) (env : IrqEnv) : IrqResult :=
  match info with
  | none => ⟨-1, [], true⟩
  | some i =>
    if i.fd = -1 then ⟨-1, [], true⟩
    else ⟨if env.writeResult = 4 then 0 else -1, [(i.fd, 0, 4)], false⟩

/-- The `errno` values `uio_irqwait_timeout` assigns itself. -/
inductive Err where
  | einval
  | etimedout
deriving DecidableEq

/-- OS environment for `uio_irqwait_timeout`: the result of
`select (fd + 1, &rfds, NULL, NULL, timeout)` and of `read (fd, &dummy, 4)`. -/
structure WaitEnv where
  selectResult : Int
  readResult : Int

/-- Result of `uio_irqwait_timeout`: return code, the `errno` value the
function itself assigned (`none` = left to the failing OS call, i.e. the
generic error), and how many `select` and `read` calls were issued. -/
structure WaitResult where
  ret : Int
  errnoSet : Option Err
  selects : Nat
  reads : Nat
deriving DecidableEq

/-- Embedding of `uio_irqwait_timeout` (`timeout` is whether the caller
passed a non-NULL `struct timeval *`). The `switch (ret)` on the select
result falls through from `case 0` (which sets `errno = ETIMEDOUT`) into
`case -1` (which returns -1); any other select result proceeds to the read.
The final return is `(ret < 0) ? ret : 0` on the read result. -/
def uio_irqwait_timeout (info : Option uio_info_t) (timeout : Bool)
    (env : WaitEnv) : WaitResult :=
  match info with
  | none => ⟨-1, some .einval, 0, 0⟩
  | some i =>
    if i.fd = -1 then ⟨-1, some .einval, 0, 0⟩
    else if timeout = true ∧ env.selectResult = 0 then ⟨-1, some .etimedout, 1, 0⟩
    else if timeout = true ∧ env.selectResult = -1 then ⟨-1, none, 1, 0⟩
    else
      ⟨if env.readResult < 0 then env.readResult else 0, none,
       if timeout then 1 else 0, 1⟩

/-- OS environment for `uio_find_devices`: `scandir` returns the raw entry
names of a directory (`none` = failure); `callocOk` is whether the
`calloc (nr, sizeof (struct uio_info_t *))` allocation succeeds; and
`create_uio_info` is the external factory, called with the directory path
and an entry name (it may return `NULL`). -/
structure FindEnv where
  scandir : String → Option (List String)
  callocOk : Bool
  create_uio_info : String → String → Option uio_info_t

/-- Embedding of `uio_find_devices`. `scandir` is called on
`sysfs ++ "/class/uio"` with the `alphasort` comparator, modelled by sorting
the raw entry names lexicographically. On listing failure, or when the
`calloc` of the `nr`-element result array fails, the function returns `NULL`.
Otherwise it walks the sorted entries in order, skips `"."` and `".."`, and
stores one factory result per remaining entry into consecutive slots; the
`nr - t` slots never written stay `NULL` (the array was zeroed by `calloc`). -/
def uio_find_devices (sysfs : String) (env : FindEnv) :
    Option (List (Option uio_info_t)) :=
  let sysfsname := sysfs ++ "/class/uio"
  match env.scandir sysfsname with
  | none => none
  | some namelist =>
    if env.callocOk then
      let sorted := namelist.insertionSort (fun a b => a ≤ b)
      let valid := sorted.filter (fun n => n != "." && n != "..")
      some (valid.map (env.create_uio_info sysfsname)
            ++ List.replicate (namelist.length - valid.length) none)
    else none

/-! Helper lemmas about the open/close loops. -/

theorem mmapWrites_length (env : OpenEnv) (mm : Nat) (l : List UioMap) :
    ∀ idx, (mmapWrites env mm idx l).length = l.length := by
  induction l with
  | nil => intro idx; rfl
  | cons m rest ih => intro idx; simpa [mmapWrites] using ih (idx + 1)

theorem unmapWrites_length (mm : Nat) (l : List UioMap) :
    ∀ idx, (unmapWrites mm idx l).length = l.length := by
  induction l with
  | nil => intro idx; rfl
  | cons m rest ih => intro idx; simpa [unmapWrites] using ih (idx + 1)

theorem mmapWrites_get? (env : OpenEnv) (mm : Nat) (l : List UioMap) :
    ∀ idx k, (mmapWrites env mm idx l).get? k =
      (l.get? k).map (fun m =>
        if idx + k < mm then { m with map := env.mmapResult (idx + k) m.size }
        else m) := by
  induction l with
  | nil => intro idx k; simp [mmapWrites]
  | cons m rest ih =>
    intro idx k
    cases k with
    | zero => simp [mmapWrites]
    | succ k =>
      have harith : idx + 1 + k = idx + (k + 1) := by omega
      simpa [mmapWrites, harith] using ih (idx + 1) k

theorem unmapWrites_get? (mm : Nat) (l : List UioMap) :
    ∀ idx k, (unmapWrites mm idx l).get? k =
      (l.get? k).map (fun m =>
        if idx + k < mm then { m with map := none } else m) := by
  induction l with
  | nil => intro idx k; simp [unmapWrites]
  | cons m rest ih =>
    intro idx k
    cases k with
    | zero => simp [unmapWrites]
    | succ k =>
      have harith : idx + 1 + k = idx + (k + 1) := by omega
      simpa [unmapWrites, harith] using ih (idx + 1) k

theorem unmapWrites_mmapWrites_of_none (env : OpenEnv) (mm : Nat)
    (l : List UioMap) :
    ∀ idx, (∀ m ∈ l, m.map = none) →
      unmapWrites mm idx (mmapWrites env mm idx l) = l := by
  induction l with
  | nil => intro idx _; rfl
  | cons m rest ih =>
    intro idx h
    have hm : m.map = none := h m (List.mem_cons_self _ _)
    have hrest : ∀ x ∈ rest, x.map = none :=
      fun x hx => h x (List.mem_cons_of_mem _ hx)
    cases m with
    | mk a s o mp =>
      by_cases hidx : idx < mm <;>
        simp [mmapWrites, unmapWrites, hidx, ih (idx + 1) hrest, hm.symm]

theorem munmapCallsOf_eq_nil (mm : Nat) (l : List UioMap) :
    ∀ idx, (∀ m ∈ l, m.map = none) → munmapCallsOf mm idx l = [] := by
  induction l with
  | nil => intro idx _; rfl
  | cons m rest ih =>
    intro idx h
    have hm : m.map = none := h m (List.mem_cons_self _ _)
    have hrest : ∀ x ∈ rest, x.map = none :=
      fun x hx => h x (List.mem_cons_of_mem _ hx)
    simp [munmapCallsOf, hm, ih (idx + 1) hrest]

theorem mmapCallsOf_eq_enumFrom (mm : Nat) (l : List UioMap) :
    ∀ idx, idx + l.length ≤ mm →
      mmapCallsOf mm idx l = (l.enumFrom idx).map (fun p => (p.1, p.2.size)) := by
  induction l with
  | nil => intro idx _; rfl
  | cons m rest ih =>
    intro idx h
    have hlen : idx + (rest.length + 1) ≤ mm := by simpa using h
    have hidx : idx < mm := by omega
    simp [mmapCallsOf, hidx, List.enumFrom, ih (idx + 1) (by omega)]

theorem unmapWrites_map_none (mm : Nat) (l : List UioMap) :
    ∀ idx, idx + l.length ≤ mm → ∀ m ∈ unmapWrites mm idx l, m.map = none := by
  induction l with
  | nil => intro idx _ m hm; simp [unmapWrites] at hm
  | cons a rest ih =>
    intro idx h m hm
    have hlen : idx + (rest.length + 1) ≤ mm := by simpa using h
    have hidx : idx < mm := by omega
    simp only [unmapWrites, if_pos hidx, List.mem_cons] at hm
    rcases hm with hm | hm
    · subst hm; rfl
    · exact ih (idx + 1) (by omega) m hm

/-! Concrete fixtures used by the witnesses and counterexamples. -/

/-- A discovered, unopened map slot of size 4096. -/
def mapA : UioMap := { addr := 0x80000000, size := 4096, offset := 0, map := none }

/-- An absent map slot: declared size 0. -/
def mapB : UioMap := { addr := 0, size := 0, offset := 0, map := none }

/-- A freshly discovered, unopened two-map descriptor with sizes [4096, 0]. -/
def infoD : uio_info_t :=
  { name := some "uio0", version := some "0.01", devname := "/dev/uio0",
    devid := 0, maxmap := 2, maps := [mapA, mapB], fd := -1 }

/-- An opened one-map descriptor with a live mapping and fd 5. -/
def infoM : uio_info_t :=
  { name := some "uio1", version := some "0.01", devname := "/dev/uio1",
    devid := 0, maxmap := 1, maps := [{ mapA with map := some 0x7f0000 }],
    fd := 5 }

/-- An OS environment where `open` yields fd 3 and `mmap` succeeds exactly on
nonzero sizes (POSIX: a zero-length `mmap` fails with `EINVAL`). -/
def envD : OpenEnv :=
  { openResult := 3,
    mmapResult := fun _ sz => if sz = 0 then none else some 0x10000 }

/-! Claim C1. -/

/-- **C1** (counterexample). For the descriptor with map sizes `[4096, 0]`,
`uio_open` does NOT skip the size-0 slot: its mmap-call trace is
`[(0, 4096), (1, 0)]` — two mapping calls, one of them for index 1 —
contradicting the claim that open issues no mapping call for a size-0 index
and attempts exactly one mapping call. -/
theorem C1_counterexample :
    (uio_open (some infoD) envD).mmapCalls = [(0, 4096), (1, 0)] ∧
    ((uio_open (some infoD) envD).mmapCalls).length ≠ 1 := by decide

/-- **C1** (amended). `uio_open` issues one mapping call for every map index
in order, including indices whose declared size is 0; because a zero-length
`mmap` fails (returns `MAP_FAILED`), a size-0 slot's pointer nevertheless
ends up in the sentinel unmapped state — so for sizes `[4096, 0]` open
attempts two mapping calls and index 1's pointer remains the sentinel. -/
theorem C1_amended (i : uio_info_t) (env : OpenEnv) (hwf : WF i)
    (hopen : 0 ≤ env.openResult) (hmmap0 : ∀ j, env.mmapResult j 0 = none) :
    (uio_open (some i) env).mmapCalls =
      i.maps.enum.map (fun p => (p.1, p.2.size)) ∧
    ((uio_open (some i) env).mmapCalls).length = i.maxmap ∧
    ∃ i', (uio_open (some i) env).st = some i' ∧
      ∀ k, k < i.maps.length →
        (i.maps.get? k).map UioMap.size = some 0 →
        (i'.maps.get? k).map UioMap.map = some none := by
  have hnot : ¬ env.openResult < 0 := by omega
  have hlen : i.maps.length = i.maxmap := hwf
  have hcalls : (uio_open (some i) env).mmapCalls = mmapCallsOf i.maxmap 0 i.maps := by
    simp [uio_open, hnot]
  have hen : mmapCallsOf i.maxmap 0 i.maps
      = (i.maps.enumFrom 0).map (fun p => (p.1, p.2.size)) :=
    mmapCallsOf_eq_enumFrom i.maxmap i.maps 0 (by omega)
  refine ⟨by rw [hcalls, hen]; rfl, ?_, ?_⟩
  · rw [hcalls, hen]
    simp [hlen]
  · refine ⟨{ i with maps := mmapWrites env i.maxmap 0 i.maps,
                     fd := env.openResult }, by simp [uio_open, hnot], ?_⟩
    intro k hk hsz
    cases hget : i.maps.get? k with
    | none => rw [hget] at hsz; simp at hsz
    | some m =>
      rw [hget] at hsz
      have hm0 : m.size = 0 := by simpa using hsz
      have : ({ i with maps := mmapWrites env i.maxmap 0 i.maps,
                       fd := env.openResult } : uio_info_t).maps.get? k
          = (i.maps.get? k).map (fun m =>
              if 0 + k < i.maxmap then
                { m with map := env.mmapResult (0 + k) m.size } else m) :=
        mmapWrites_get? env i.maxmap i.maps 0 k
      rw [this, hget]
      have hklt : k < i.maxmap := by omega
      simp [hklt, hm0, hmmap0]

/-- **C1** (witness). The amended theorem applied to the concrete `[4096, 0]`
descriptor: open issues `maxmap = 2` mapping calls. -/
theorem C1_witness :
    ((uio_open (some infoD) envD).mmapCalls).length = infoD.maxmap :=
  (C1_amended infoD envD (by decide) (by decide) (fun j => rfl)).2.1

/-! Claim C2. -/

/-- **C2** (counterexample). Open followed by close does NOT return the file
handle to the closed sentinel: after `uio_open` (fd 3) and `uio_close`, the
descriptor's `fd` field still holds 3, not -1 — `uio_close` never resets the
`fd` field. -/
theorem C2_counterexample :
    ((uio_close (uio_open (some infoD) envD).st).st.map uio_info_t.fd)
      = some 3 ∧ (some 3 : Option Int) ≠ some (-1) := by decide

/-- **C2** (amended). For an unopened descriptor (all map pointers in the
sentinel state), `uio_open` followed immediately by `uio_close` restores the
descriptor exactly, field by field — hence indistinguishable by every
accessor — except that the `fd` field retains the file handle returned by
`open` instead of returning to the closed sentinel -1; `uio_close` itself
returns success. -/
theorem C2_amended (i : uio_info_t) (env : OpenEnv)
    (hmaps : ∀ m ∈ i.maps, m.map = none) (hopen : 0 ≤ env.openResult) :
    (uio_close (uio_open (some i) env).st).st
      = some { i with fd := env.openResult } ∧
    (uio_close (uio_open (some i) env).st).ret = 0 := by
  have hnot : ¬ env.openResult < 0 := by omega
  have hst : (uio_open (some i) env).st
      = some { i with maps := mmapWrites env i.maxmap 0 i.maps,
                      fd := env.openResult } := by
    simp [uio_open, hnot]
  rw [hst]
  refine ⟨?_, rfl⟩
  show some _ = some _
  have hroundtrip :
      unmapWrites i.maxmap 0 (mmapWrites env i.maxmap 0 i.maps) = i.maps :=
    unmapWrites_mmapWrites_of_none env i.maxmap i.maps 0 hmaps
  simp [uio_close, hroundtrip]

/-- **C2** (witness). The amended round-trip at the concrete `[4096, 0]`
descriptor and fd 3. -/
theorem C2_witness :
    (uio_close (uio_open (some infoD) envD).st).st
      = some { infoD with fd := 3 } :=
  (C2_amended infoD envD (by decide) (by decide)).1

/-! Claim C3. -/

/-- **C3** (counterexample). The accessors are NOT total for a negative map
index: the guard only checks `map >= info->maxmap`, so `uio_get_mem_size`
with index -1 performs an out-of-bounds array access (modelled as `none`)
instead of returning the claimed neutral value 0. -/
theorem C3_counterexample :
    uio_get_mem_size (some infoD) (-1) = none ∧
    (none : Option Nat) ≠ some 0 := by decide

/-- **C3** (amended). Every accessor returns the neutral absent value for a
null descriptor, and every per-map accessor returns it for any index at or
above `maxmap`; but for a negative index the per-map accessors read the map
array out of bounds (undefined behaviour) instead of returning the neutral
value. -/
theorem C3_amended (i : uio_info_t) (midx neg : Int)
    (hmid : (i.maxmap : Int) ≤ midx) (hneg : neg < 0) :
    (uio_get_mem_size none midx = some 0 ∧ uio_get_offset none midx = some 0 ∧
     uio_get_mem_addr none midx = some 0 ∧
     uio_get_mem_map none midx = some none ∧
     uio_get_name none = none ∧ uio_get_devname none = none ∧
     uio_get_version none = none ∧ uio_get_major none = 0 ∧
     uio_get_minor none = 0 ∧ uio_get_devid none = 0 ∧
     uio_get_maxmap none = 0) ∧
    (uio_get_mem_size (some i) midx = some 0 ∧
     uio_get_offset (some i) midx = some 0 ∧
     uio_get_mem_addr (some i) midx = some 0 ∧
     uio_get_mem_map (some i) midx = some none) ∧
    (uio_get_mem_size (some i) neg = none ∧
     uio_get_offset (some i) neg = none ∧
     uio_get_mem_addr (some i) neg = none ∧
     uio_get_mem_map (some i) neg = none) := by
  have hnn : (0 : Int) ≤ (i.maxmap : Int) := Int.natCast_nonneg _
  have hnotneg : ¬ (i.maxmap : Int) ≤ neg := by omega
  have hnot0 : ¬ (0 : Int) ≤ neg := by omega
  refine ⟨⟨rfl, rfl, rfl, rfl, rfl, rfl, rfl, rfl, rfl, rfl, rfl⟩, ?_, ?_⟩
  · simp [uio_get_mem_size, uio_get_offset, uio_get_mem_addr,
          uio_get_mem_map, hmid]
  · simp [uio_get_mem_size, uio_get_offset, uio_get_mem_addr,
          uio_get_mem_map, readMap, hnotneg, hnot0]

/-- **C3** (witness). The amended totality at the concrete descriptor, at
the in-claim out-of-range index 5 and the excluded negative index -1. -/
theorem C3_witness :
    uio_get_mem_size (some infoD) 5 = some 0 ∧
    uio_get_mem_size (some infoD) (-1) = none :=
  ⟨((C3_amended infoD 5 (-1) (by decide) (by decide)).2.1).1,
   ((C3_amended infoD 5 (-1) (by decide) (by decide)).2.2).1⟩

/-! Claim C4. -/

/-- **C4**. `uio_open` on a non-null descriptor: if `open` fails it returns
-1 with no mapping attempted and the descriptor unchanged (errno is the OS
error, not `EINVAL`); otherwise it attempts one mapping per map index in
order, stores each mmap result (success or `MAP_FAILED`) into that slot's
pointer without aborting, stores the open file handle, and returns 0
regardless of how many individual mappings failed. -/
theorem C4_uio_open (i : uio_info_t) (env : OpenEnv) (hwf : WF i) :
    (env.openResult < 0 →
      uio_open (some i) env = ⟨-1, some i, [], false⟩) ∧
    (0 ≤ env.openResult →
      (uio_open (some i) env).ret = 0 ∧
      (uio_open (some i) env).einval = false ∧
      (uio_open (some i) env).mmapCalls =
        i.maps.enum.map (fun p => (p.1, p.2.size)) ∧
      ∃ i', (uio_open (some i) env).st = some i' ∧
        i'.fd = env.openResult ∧
        i'.name = i.name ∧ i'.version = i.version ∧
        i'.devname = i.devname ∧ i'.devid = i.devid ∧
        i'.maxmap = i.maxmap ∧ i'.maps.length = i.maps.length ∧
        ∀ k, k < i.maps.length →
          (i'.maps.get? k).map UioMap.map =
            (i.maps.get? k).map (fun m => env.mmapResult k m.size)) := by
  constructor
  · intro hlt
    simp [uio_open, hlt]
  · intro hge
    have hnot : ¬ env.openResult < 0 := by omega
    have hlen : i.maps.length = i.maxmap := hwf
    refine ⟨by simp [uio_open, hnot], by simp [uio_open, hnot], ?_, ?_⟩
    · have : (uio_open (some i) env).mmapCalls
          = mmapCallsOf i.maxmap 0 i.maps := by simp [uio_open, hnot]
      rw [this, mmapCallsOf_eq_enumFrom i.maxmap i.maps 0 (by omega)]
      rfl
    · refine ⟨{ i with maps := mmapWrites env i.maxmap 0 i.maps,
                       fd := env.openResult },
              by simp [uio_open, hnot], rfl, rfl, rfl, rfl, rfl, rfl,
              mmapWrites_length env i.maxmap i.maps 0, ?_⟩
      intro k hk
      have hget := mmapWrites_get? env i.maxmap i.maps 0 k
      rw [hget]
      cases hm : i.maps.get? k with
      | none => rfl
      | some m =>
        have hklt : k < i.maxmap := by omega
        simp [hklt]

/-- **C4** (witness). The theorem at the concrete `[4096, 0]` descriptor and
an environment where `open` succeeds: open returns 0. -/
theorem C4_witness : (uio_open (some infoD) envD).ret = 0 :=
  ((C4_uio_open infoD envD (by decide)).2 (by decide)).1

/-! Claim C5. -/

/-- **C5**. Two successive `uio_close` calls on a non-null well-formed
descriptor: after each call every map pointer is in the sentinel state, the
second call's unmap loop skips every (already-sentinel) index — it issues no
`munmap` call — and both calls return 0. -/
theorem C5_close_idempotent (i : uio_info_t) (hwf : WF i) :
    ∃ i1, (uio_close (some i)).st = some i1 ∧
      (uio_close (some i)).ret = 0 ∧
      (∀ m ∈ i1.maps, m.map = none) ∧
      (uio_close (some i1)).ret = 0 ∧
      (uio_close (some i1)).munmapCalls = [] ∧
      ∃ i2, (uio_close (some i1)).st = some i2 ∧
        ∀ m ∈ i2.maps, m.map = none := by
  have hlen : i.maps.length = i.maxmap := hwf
  refine ⟨{ i with maps := unmapWrites i.maxmap 0 i.maps }, rfl, rfl, ?_, rfl,
          ?_, ?_⟩
  · exact unmapWrites_map_none i.maxmap i.maps 0 (by omega)
  · exact munmapCallsOf_eq_nil i.maxmap _ 0
      (unmapWrites_map_none i.maxmap i.maps 0 (by omega))
  · refine ⟨_, rfl, ?_⟩
    show ∀ m ∈ unmapWrites i.maxmap 0 (unmapWrites i.maxmap 0 i.maps),
      m.map = none
    refine unmapWrites_map_none i.maxmap _ 0 ?_
    rw [unmapWrites_length]
    omega

/-- **C5** (witness). The double close at a concrete opened descriptor with
a live mapping: the second close issues no `munmap` call. -/
theorem C5_witness :
    (uio_close (uio_close (some infoM)).st).munmapCalls = [] := by
  have h := C5_close_idempotent infoM (by decide)
  obtain ⟨i1, hst, -, -, -, hcalls, -⟩ := h
  rw [hst]
  exact hcalls

/-! Claim C6. -/

/-- **C6**. `uio_irqwait_timeout` on a non-null, open descriptor: with a
timeout supplied, a select result of 0 (deadline elapsed) yields the
timeout-specific failure (`errno = ETIMEDOUT`, return -1, no read), while a
select error (-1) yields the generic failure (return -1 with `errno` left to
the OS, not `ETIMEDOUT`); when the wait is ready (positive select result) or
no timeout is supplied, the 4-byte read is performed and the call fails
exactly when the read result is negative — any non-negative (including
short) read result is reported as success 0. -/
theorem C6_irqwait (i : uio_info_t) (env : WaitEnv) (hfd : i.fd ≠ -1) :
    (env.selectResult = 0 →
      uio_irqwait_timeout (some i) true env = ⟨-1, some .etimedout, 1, 0⟩) ∧
    (env.selectResult = -1 →
      uio_irqwait_timeout (some i) true env = ⟨-1, none, 1, 0⟩) ∧
    (0 < env.selectResult →
      uio_irqwait_timeout (some i) true env =
        ⟨if env.readResult < 0 then env.readResult else 0, none, 1, 1⟩ ∧
      ((uio_irqwait_timeout (some i) true env).ret = 0 ↔
        0 ≤ env.readResult)) ∧
    (uio_irqwait_timeout (some i) false env =
      ⟨if env.readResult < 0 then env.readResult else 0, none, 0, 1⟩) ∧
    (some Err.etimedout ≠ (none : Option Err)) := by
  refine ⟨?_, ?_, ?_, ?_, by simp⟩
  · intro h0
    simp [uio_irqwait_timeout, hfd, h0]
  · intro hm1
    simp [uio_irqwait_timeout, hfd, hm1]
  · intro hpos
    have h0 : ¬ env.selectResult = 0 := by omega
    have hm1 : ¬ env.selectResult = -1 := by omega
    constructor
    · simp [uio_irqwait_timeout, hfd, h0, hm1]
    · simp only [uio_irqwait_timeout, hfd, h0, hm1]
      by_cases hr : env.readResult < 0 <;> simp [hr] <;> omega
  · simp [uio_irqwait_timeout, hfd]

/-- **C6** (witness). The theorem at the opened one-map descriptor and an
environment whose select result is 0: the timeout-specific failure. -/
theorem C6_witness :
    uio_irqwait_timeout (some infoM) true ⟨0, 4⟩ =
      ⟨-1, some .etimedout, 1, 0⟩ :=
  (C6_irqwait infoM ⟨0, 4⟩ (by decide)).1 rfl

/-! Claim C7. -/

/-- **C7**. `uio_enable_irq` and `uio_disable_irq` fail with `EINVAL` and
perform no I/O when the descriptor is null or its `fd` is the closed
sentinel -1; otherwise each issues exactly one 4-byte write to the file
handle (value 1 for enable, 0 for disable) and returns 0 exactly when the
write accepted 4 bytes. -/
theorem C7_irq_toggle (i : uio_info_t) (env : IrqEnv) :
    (uio_enable_irq none env = ⟨-1, [], true⟩) ∧
    (uio_disable_irq none env = ⟨-1, [], true⟩) ∧
    (i.fd = -1 →
      uio_enable_irq (some i) env = ⟨-1, [], true⟩ ∧
      uio_disable_irq (some i) env = ⟨-1, [], true⟩) ∧
    (i.fd ≠ -1 →
      (uio_enable_irq (some i) env).writes = [(i.fd, 1, 4)] ∧
      (uio_disable_irq (some i) env).writes = [(i.fd, 0, 4)] ∧
      (uio_enable_irq (some i) env).einval = false ∧
      (uio_disable_irq (some i) env).einval = false ∧
      ((uio_enable_irq (some i) env).ret = 0 ↔ env.writeResult = 4) ∧
      ((uio_disable_irq (some i) env).ret = 0 ↔ env.writeResult = 4)) := by
  refine ⟨rfl, rfl, ?_, ?_⟩
  · intro h
    simp [uio_enable_irq, uio_disable_irq, h]
  · intro h
    refine ⟨by simp [uio_enable_irq, h], by simp [uio_disable_irq, h],
            by simp [uio_enable_irq, h], by simp [uio_disable_irq, h],
            ?_, ?_⟩ <;>
      simp only [uio_enable_irq, uio_disable_irq, if_neg h] <;>
      by_cases hw : env.writeResult = 4 <;> simp [hw]

/-- **C7** (witness). The theorem at the never-opened descriptor (fd -1):
enable fails with `EINVAL` and performs no write. -/
theorem C7_witness :
    uio_enable_irq (some infoD) ⟨4⟩ = ⟨-1, [], true⟩ :=
  ((C7_irq_toggle infoD ⟨4⟩).2.2.1 (by decide)).1

/-! Claim C9. -/

/-- **C9**. `uio_close` returns the `EINVAL` failure -1 exactly on a null
descriptor; on every non-null descriptor it returns 0 — the return code
never reflects an individual unmap failure, only the validity of the
input. -/
theorem C9_close_ret :
    (uio_close none).ret = -1 ∧ (uio_close none).einval = true ∧
    ∀ i : uio_info_t,
      (uio_close (some i)).ret = 0 ∧ (uio_close (some i)).einval = false :=
  ⟨rfl, rfl, fun _ => ⟨rfl, rfl⟩⟩

/-! Claim C10. -/

/-- **C10**. `uio_close` on a non-null descriptor modifies only the per-map
pointer fields: `fd`, `name`, `version`, `devname`, `devid`, `maxmap` and
every map's size/offset/address are unchanged — in particular `fd` is NOT
reset to -1, so when the descriptor was open (fd ≠ -1) a subsequent
`uio_enable_irq`, `uio_disable_irq` or `uio_irqwait_timeout` on the closed
descriptor is not rejected with `EINVAL`. -/
theorem C10_close_frame (i : uio_info_t) (env : IrqEnv) (wenv : WaitEnv)
    (tb : Bool) (hfd : i.fd ≠ -1) :
    ∃ i', (uio_close (some i)).st = some i' ∧
      i'.fd = i.fd ∧ i'.name = i.name ∧ i'.version = i.version ∧
      i'.devname = i.devname ∧ i'.devid = i.devid ∧ i'.maxmap = i.maxmap ∧
      i'.maps.length = i.maps.length ∧
      (∀ k, (i'.maps.get? k).map UioMap.size
              = (i.maps.get? k).map UioMap.size ∧
            (i'.maps.get? k).map UioMap.offset
              = (i.maps.get? k).map UioMap.offset ∧
            (i'.maps.get? k).map UioMap.addr
              = (i.maps.get? k).map UioMap.addr) ∧
      (uio_enable_irq (some i') env).einval = false ∧
      (uio_disable_irq (some i') env).einval = false ∧
      (uio_irqwait_timeout (some i') tb wenv).errnoSet ≠ some Err.einval := by
  refine ⟨{ i with maps := unmapWrites i.maxmap 0 i.maps }, rfl, rfl, rfl,
          rfl, rfl, rfl, rfl, unmapWrites_length i.maxmap i.maps 0, ?_,
          by simp [uio_enable_irq, hfd], by simp [uio_disable_irq, hfd], ?_⟩
  · intro k
    have hget := unmapWrites_get? i.maxmap i.maps 0 k
    refine ⟨?_, ?_, ?_⟩ <;>
      · show (Option.map _ ((unmapWrites i.maxmap 0 i.maps).get? k)) = _
        rw [hget]
        cases i.maps.get? k with
        | none => rfl
        | some m => by_cases hk : k < i.maxmap <;> simp [hk]
  · show ((uio_irqwait_timeout (some { i with
      maps := unmapWrites i.maxmap 0 i.maps }) tb wenv).errnoSet
        ≠ some Err.einval)
    simp only [uio_irqwait_timeout, hfd]
    by_cases h0 : tb = true ∧ wenv.selectResult = 0 <;>
      by_cases h1 : tb = true ∧ wenv.selectResult = -1 <;>
      simp [h0, h1, hfd]

/-- **C10** (witness). The frame property at the opened descriptor with a
live mapping: after close, enable-irq is not rejected with `EINVAL`. -/
theorem C10_witness :
    (uio_close (some infoM)).st.elim True
      (fun i' => (uio_enable_irq (some i') ⟨4⟩).einval = false) := by
  obtain ⟨i', hst, -, -, -, -, -, -, -, -, hen, -⟩ :=
    C10_close_frame infoM ⟨4⟩ ⟨0, 4⟩ true (by decide)
  rw [hst]
  exact hen

/-! Claim C8. -/

/-- A concrete discovery environment: the `class/uio` directory holds the
raw entries `uio1`, `.`, `uio0`, `..` (in creation order), allocation
succeeds, and the factory populates a trivial descriptor per entry. -/
def env8 : FindEnv :=
  { scandir := fun p =>
      if p = "/sys/class/uio" then some ["uio1", ".", "uio0", ".."] else none,
    callocOk := true,
    create_uio_info := fun dir n =>
      some { name := some n, version := none, devname := dir ++ "/" ++ n,
             devid := 0, maxmap := 0, maps := [], fd := -1 } }

/-- Sorting the concrete entry list of `env8` lexicographically. -/
theorem env8_sorted :
    (["uio1", ".", "uio0", ".."].insertionSort (fun a b : String => a ≤ b))
      = [".", "..", "uio0", "uio1"] := by
  simp [List.insertionSort, List.orderedInsert]; decide

/-- **C8** (counterexample). With two valid entries (`uio0`, `uio1`) plus the
two pseudo-entries, the returned array has length 4 — the `calloc`'d length
`nr` counting `.` and `..` — not 2, contradicting the claim that the returned
array's length equals the count of valid entries. -/
theorem C8_counterexample :
    (uio_find_devices "/sys" env8).map List.length = some 4 ∧
    (some 4 : Option Nat) ≠ some 2 := by
  have heval : uio_find_devices "/sys" env8
      = some [env8.create_uio_info "/sys/class/uio" "uio0",
              env8.create_uio_info "/sys/class/uio" "uio1", none, none] := by
    simp only [uio_find_devices, env8]
    rw [(by decide : ("/sys" ++ "/class/uio") = "/sys/class/uio")]
    simp only [if_true, env8_sorted]
    decide
  rw [heval]
  decide

/-- **C8** (amended). `uio_find_devices` returns null when the directory
listing of `class/uio` cannot be obtained OR when the allocation of the
result array fails; otherwise it skips `.` and `..`, invokes the factory
once per remaining entry in lexicographic order of entry names, stores the
results preserving scan order in the first slots of the array, and the
returned array's length equals the TOTAL entry count `nr` (pseudo-entries
included), its trailing `nr - t` slots (never written, zeroed by `calloc`)
remaining null. -/
theorem C8_find_devices (sysfs : String)
    (scanFn : String → Option (List String))
    (factory : String → String → Option uio_info_t) (entries : List String)
    (hscan : scanFn (sysfs ++ "/class/uio") = some entries) :
    (uio_find_devices sysfs ⟨scanFn, false, factory⟩ = none) ∧
    ∃ out, uio_find_devices sysfs ⟨scanFn, true, factory⟩ = some out ∧
      out.length = entries.length ∧
      ∃ names, List.Sorted (fun a b : String => a ≤ b) names ∧
        names.Perm (entries.filter (fun n => n != "." && n != "..")) ∧
        out.take names.length = names.map (factory (sysfs ++ "/class/uio")) ∧
        out.drop names.length =
          List.replicate (entries.length - names.length) none := by
  refine ⟨by simp [uio_find_devices, hscan], ?_⟩
  have hperm : ((entries.insertionSort (fun a b : String => a ≤ b)).filter
        (fun n => n != "." && n != "..")).Perm
      (entries.filter (fun n => n != "." && n != "..")) :=
    (List.perm_insertionSort _ entries).filter _
  have hlen_le : ((entries.insertionSort (fun a b : String => a ≤ b)).filter
        (fun n => n != "." && n != "..")).length ≤ entries.length := by
    rw [hperm.length_eq]
    exact List.length_filter_le _ _
  have hout : uio_find_devices sysfs ⟨scanFn, true, factory⟩
      = some (((entries.insertionSort (fun a b : String => a ≤ b)).filter
                 (fun n => n != "." && n != "..")).map
                (factory (sysfs ++ "/class/uio"))
              ++ List.replicate
                  (entries.length -
                    ((entries.insertionSort (fun a b : String => a ≤ b)).filter
                       (fun n => n != "." && n != "..")).length) none) := by
    unfold uio_find_devices
    dsimp only
    rw [hscan]
    rfl
  refine ⟨_, hout, ?_,
          (entries.insertionSort (fun a b : String => a ≤ b)).filter
            (fun n => n != "." && n != ".."),
          (List.sorted_insertionSort _ entries).filter _, hperm, ?_, ?_⟩
  · simp only [List.length_append, List.length_map, List.length_replicate]
    omega
  · rw [← List.length_map _ (factory (sysfs ++ "/class/uio")), List.take_left]
  · rw [← List.length_map _ (factory (sysfs ++ "/class/uio")), List.drop_left]

/-- **C8** (witness). The amended theorem at the concrete environment: when
the `calloc` of the result array fails, discovery returns null even though
the directory listing succeeded. -/
theorem C8_witness :
    uio_find_devices "/sys" ⟨env8.scandir, false, env8.create_uio_info⟩
      = none :=
  (C8_find_devices "/sys" env8.scandir env8.create_uio_info
    ["uio1", ".", "uio0", ".."] (by decide)).1

end LibUio
